import Mathlib

/-
Shallow embedding of the passata work/break scheduler (src/src/main.rs).

Durations and timestamps are modelled in whole seconds as naturals.  The
`u8` fields of the source (`current_short_breaks`,
`short_breaks_before_long_break`) are modelled as naturals with arithmetic
taken modulo 256 where the source performs `u8` additions.  Code paths
where the source panics (an `unwrap()` of a `None`, or an underflowing
`Duration` subtraction) are modelled by returning `none`.
-/

namespace PassataApp

/-- Configuration struct, main.rs lines 47-59.  In the source
`short_breaks_before_long_break` is an `Option<u8>`. -/
structure Config where
  work_interval : Nat
  short_break : Nat
  long_break : Option Nat
  short_breaks_before_long_break : Option Nat
  idle_timeout : Option Nat
deriving DecidableEq, Repr

/-- The enum NextEvent, main.rs lines 61-66: the phase that the next timer
expiry will enter (so the process is in the Work phase exactly when
`next_event` is `ShortBreak` or `LongBreak`). -/
inductive NextEvent where
  | Work
  | ShortBreak
  | LongBreak
deriving DecidableEq, Repr

/-- The enum IdleStatus, main.rs lines 92-95. -/
inductive IdleStatus where
  | Idled
  | Resumed
deriving DecidableEq, Repr

/-- The scheduler fields of struct Passata, main.rs lines 97-109 (the
Wayland registry/seat plumbing fields are external collaborators and are
omitted).  `time_passed` stores, at pause time, the elapsed seconds
`timer_started.elapsed()`; `timer_started` is the absolute time the current
countdown was last (re)started. -/
structure Passata where
  next_event : NextEvent
  current_short_breaks : Nat
  time_passed : Option Nat
  timer_started : Nat
  idle_status : Option IdleStatus
deriving DecidableEq, Repr

/-- A notification emitted through notify_rust, reduced to the data the
scheduler computes: a short-break summary with its optional
`(current/total)` progress pair, the long-break summary, or the
"time until next break" summary carrying the displayed seconds. -/
inductive Notification where
  | shortBreak (progress : Option (Nat × Nat))
  | longBreak
  | untilNextBreak (secs : Nat)
deriving DecidableEq, Repr

/-- Rendering of the short-break progress suffix, the
format of main.rs lines 202-206. -/
def suffixString : Option (Nat × Nat) → String
  | none => ""
  | some (c, t) => " (" ++ toString c ++ "/" ++ toString t ++ ")"

/-- The calloop pieces the scheduler drives: whether the timer event source
is enabled (`handle.disable` / `handle.enable` on the registration token)
and the duration the countdown is currently armed with
(`TimeoutAction::ToDuration` / `set_duration`). -/
structure Timer where
  enabled : Bool
  armed : Nat
deriving DecidableEq, Repr

/-- The whole scheduler: the Passata struct plus the timer source state. -/
structure Sys where
  passata : Passata
  timer : Timer
deriving DecidableEq, Repr

/-- The timer Dispatcher closure, main.rs lines 176-227, run when the armed
countdown expires at absolute time `now`.  Returns the updated state, the
`TimeoutAction::ToDuration` value the timer is re-armed with, and the
notification shown (if any); returns `none` where the source panics:
`state.config.long_break.unwrap()` on line 224 when `long_break` is absent.
The `u8` additions `current_short_breaks + 1` (line 188) and
`short_breaks_before_long_break + 1` (line 205) are taken modulo 256. -/
def timerCallback (cfg : Config) (now : Nat) (s : Passata) :
    Option (Passata × Nat × Option Notification) :=
  let s1 := { s with timer_started := now }
  match s1.next_event with
  | NextEvent.Work =>
    match cfg.short_breaks_before_long_break with
    | some short_breaks_before_long_break =>
      if s1.current_short_breaks = short_breaks_before_long_break then
        some ({ s1 with next_event := NextEvent.LongBreak, current_short_breaks := 0 },
              cfg.work_interval, none)
      else
        let c1 := (s1.current_short_breaks + 1) % 256
        some ({ s1 with next_event := NextEvent.ShortBreak, current_short_breaks := c1 },
              cfg.work_interval, none)
    | none =>
      some ({ s1 with next_event := NextEvent.ShortBreak }, cfg.work_interval, none)
  | NextEvent.ShortBreak =>
    let progress := cfg.short_breaks_before_long_break.map
      (fun v => (s1.current_short_breaks, (v + 1) % 256))
    some ({ s1 with next_event := NextEvent.Work }, cfg.short_break,
          some (Notification.shortBreak progress))
  | NextEvent.LongBreak =>
    match cfg.long_break with
    | some long_break =>
      some ({ s1 with next_event := NextEvent.Work }, long_break,
            some Notification.longBreak)
    | none => none

/-- The Dispatch impl for ExtIdleNotificationV1, main.rs lines 334-355: an
incoming idle event overwrites the single one-shot `idle_status` flag. -/
def deliverIdle (ev : IdleStatus) (s : Passata) : Passata :=
  { s with idle_status := some ev }

/-- The rounding applied to the displayed remaining time in the Resumed
branch, main.rs lines 249-254: below 60 seconds the exact seconds, otherwise
rounded down to a whole minute.  Only the displayed text uses this. -/
def displaySecs (time_left : Nat) : Nat :=
  if time_left < 60 then time_left else time_left - time_left % 60

/-- One pass of the idle-event block at the bottom of the main event loop,
main.rs lines 235-266, run at absolute time `now`.  The pending flag is only
taken (and acted on) when `next_event` is not `Work`, i.e. when the process
is currently in the Work phase.  Returns `none` where the source panics:
`state.time_passed.unwrap()` on line 244 when no pause value is stored, and
the `Duration` subtraction `work_interval - time_passed` on line 244 when
the stored value exceeds `work_interval`.  Note that the Resumed branch does
not clear `time_passed`. -/
def processIdle (cfg : Config) (now : Nat) (p : Passata) (t : Timer) :
    Option (Passata × Timer × Option Notification) :=
  if p.next_event = NextEvent.Work then
    some (p, t, none)
  else
    match p.idle_status with
    | none => some (p, t, none)
    | some idle_event =>
      let p1 := { p with idle_status := none }
      match idle_event with
      | IdleStatus.Idled =>
        some ({ p1 with time_passed := some (now - p1.timer_started) },
              { t with enabled := false }, none)
      | IdleStatus.Resumed =>
        match p1.time_passed with
        | none => none
        | some time_passed =>
          if cfg.work_interval < time_passed then none
          else
            let time_left := cfg.work_interval - time_passed
            some ({ p1 with timer_started := now },
                  { t with enabled := true, armed := time_left },
                  some (Notification.untilNextBreak (displaySecs time_left)))

/-- Initial Passata state, main.rs lines 151-160. -/
def initPassata : Passata :=
  { next_event := NextEvent.ShortBreak
    current_short_breaks := 0
    time_passed := none
    timer_started := 0
    idle_status := none }

/-- The timer is initially armed with the work interval, main.rs line 175. -/
def initTimer (cfg : Config) : Timer :=
  { enabled := true, armed := cfg.work_interval }

/-- Initial state of the whole scheduler. -/
def initSys (cfg : Config) : Sys :=
  { passata := initPassata, timer := initTimer cfg }

/-- A timer expiry lifted to the whole scheduler: run the Dispatcher closure
and re-arm the timer with the returned `TimeoutAction::ToDuration` value. -/
def sysExpiry (cfg : Config) (now : Nat) (s : Sys) : Option Sys :=
  (timerCallback cfg now s.passata).map
    (fun r => { passata := r.1, timer := { enabled := s.timer.enabled, armed := r.2.1 } })

/-- Delivery of an idle event lifted to the whole scheduler. -/
def sysDeliver (ev : IdleStatus) (s : Sys) : Sys :=
  { s with passata := deliverIdle ev s.passata }

/-- The idle-processing block lifted to the whole scheduler. -/
def sysIdle (cfg : Config) (now : Nat) (s : Sys) : Option Sys :=
  (processIdle cfg now s.passata s.timer).map (fun r => { passata := r.1, timer := r.2.1 })

/-- The Passata state after `n` timer expiries from a fresh start with no
idle events, the `k`-th expiry happening at absolute time `k` (the branch
taken never depends on the timestamps). -/
def stateAfter (cfg : Config) : Nat → Option Passata
  | 0 => some initPassata
  | n + 1 => (stateAfter cfg n).bind (fun p => (timerCallback cfg (n + 1) p).map (fun r => r.1))

/-- The notification emitted by the `(n+1)`-th timer expiry of the
idle-event-free run. -/
def notifAt (cfg : Config) (n : Nat) : Option (Option Notification) :=
  (stateAfter cfg n).bind (fun p => (timerCallback cfg (n + 1) p).map (fun r => r.2.2))

/-- The observable part of the scheduler state driving phase transitions:
the phase flag and the short-break counter. -/
def obs (p : Passata) : NextEvent × Nat :=
  (p.next_event, p.current_short_breaks)

/-- Observable state after `n` expiries of the idle-event-free run. -/
def obsAfter (cfg : Config) (n : Nat) : Option (NextEvent × Nat) :=
  (stateAfter cfg n).map obs

/-- The action of one timer expiry on the observable state (the projection
of `timerCallback`, see `timerCallback_obs`). -/
def obsNext (cfg : Config) : NextEvent × Nat → Option (NextEvent × Nat)
  | (NextEvent.Work, c) =>
    match cfg.short_breaks_before_long_break with
    | some v =>
      if c = v then some (NextEvent.LongBreak, 0)
      else some (NextEvent.ShortBreak, (c + 1) % 256)
    | none => some (NextEvent.ShortBreak, c)
  | (NextEvent.ShortBreak, c) => some (NextEvent.Work, c)
  | (NextEvent.LongBreak, c) =>
    match cfg.long_break with
    | some _ => some (NextEvent.Work, c)
    | none => none

/-- One step of the event-driven system: a timer expiry (possible only while
the timer source is enabled), the delivery of an idle event by the Wayland
dispatch, or one pass of the idle-processing block. -/
inductive Step (cfg : Config) : Sys → Sys → Prop where
  | expiry (now : Nat) (s s' : Sys) (he : s.timer.enabled = true)
      (h : sysExpiry cfg now s = some s') : Step cfg s s'
  | deliver (ev : IdleStatus) (s : Sys) : Step cfg s (sysDeliver ev s)
  | idle (now : Nat) (s s' : Sys) (h : sysIdle cfg now s = some s') : Step cfg s s'

/-- States reachable from the fresh initial state. -/
inductive Reachable (cfg : Config) : Sys → Prop where
  | init : Reachable cfg (initSys cfg)
  | step {s s' : Sys} : Reachable cfg s → Step cfg s s' → Reachable cfg s'

/-- The end-to-end configuration of the spec scenario: 25m work, 5m short
break, 15m long break, two short breaks before a long break, 5m idle
timeout; in seconds. -/
def cfg1 : Config :=
  { work_interval := 1500, short_break := 300, long_break := some 900
    short_breaks_before_long_break := some 2, idle_timeout := some 300 }

/-- A configuration with neither long-break option set. -/
def cfgNoLong : Config :=
  { work_interval := 100, short_break := 5, long_break := none
    short_breaks_before_long_break := none, idle_timeout := some 10 }

/-- A configuration with `short_breaks_before_long_break` set but
`long_break` absent. -/
def cfg2 : Config :=
  { work_interval := 1500, short_break := 300, long_break := none
    short_breaks_before_long_break := some 0, idle_timeout := none }

/-- The configuration with the maximal `u8` value 255 for
`short_breaks_before_long_break`. -/
def cfg10 : Config :=
  { work_interval := 1500, short_break := 300, long_break := some 900
    short_breaks_before_long_break := some 255, idle_timeout := none }

end PassataApp

namespace PassataApp

/-- The timer callback only ever reads and writes `next_event` and
`current_short_breaks` besides the timestamps; its effect on the observable
part of the state is exactly `obsNext`. -/
theorem timerCallback_obs (cfg : Config) (now : Nat) (p : Passata) :
    (timerCallback cfg now p).map (fun r => obs r.1) = obsNext cfg (obs p) := by
  cases hp : p.next_event with
  | Work =>
    cases hc : cfg.short_breaks_before_long_break with
    | none => simp [timerCallback, obsNext, obs, hp, hc]
    | some v =>
      by_cases hv : p.current_short_breaks = v <;>
        simp [timerCallback, obsNext, obs, hp, hc, hv]
  | ShortBreak => simp [timerCallback, obsNext, obs, hp]
  | LongBreak =>
    cases hl : cfg.long_break with
    | none => simp [timerCallback, obsNext, obs, hp, hl]
    | some lb => simp [timerCallback, obsNext, obs, hp, hl]

/-- Stepping the observable trace of the idle-event-free run is `obsNext`. -/
theorem obsAfter_succ (cfg : Config) (n : Nat) :
    obsAfter cfg (n + 1) = (obsAfter cfg n).bind (obsNext cfg) := by
  rw [obsAfter, stateAfter, obsAfter]
  cases h : stateAfter cfg n with
  | none => rfl
  | some p =>
    simp only [Option.some_bind, Option.map_some', Option.map_map]
    rw [show (obs ∘ fun r => (r : Passata × Nat × Option Notification).1) =
          (fun r => obs r.1) from rfl]
    exact timerCallback_obs cfg (n + 1) p

/-- The timer callback never touches the pause bookkeeping or the pending
idle flag. -/
theorem timerCallback_keeps (cfg : Config) (now : Nat) (p : Passata)
    (r : Passata × Nat × Option Notification) (h : timerCallback cfg now p = some r) :
    r.1.time_passed = p.time_passed ∧ r.1.idle_status = p.idle_status := by
  cases hp : p.next_event with
  | Work =>
    cases hc : cfg.short_breaks_before_long_break with
    | none =>
      simp [timerCallback, hp, hc] at h
      subst h; exact ⟨rfl, rfl⟩
    | some v =>
      by_cases hv : p.current_short_breaks = v
      · simp [timerCallback, hp, hc, hv] at h
        subst h; exact ⟨rfl, rfl⟩
      · simp [timerCallback, hp, hc, hv] at h
        subst h; exact ⟨rfl, rfl⟩
  | ShortBreak =>
    simp [timerCallback, hp] at h
    subst h; exact ⟨rfl, rfl⟩
  | LongBreak =>
    cases hl : cfg.long_break with
    | none => simp [timerCallback, hp, hl] at h
    | some lb =>
      simp [timerCallback, hp, hl] at h
      subst h; exact ⟨rfl, rfl⟩

/-- A family of configurations with `short_breaks_before_long_break = 2` and
`long_break` present, as in claim C1. -/
def cfgWith (wi sb lb : Nat) : Config :=
  { work_interval := wi, short_break := sb, long_break := some lb
    short_breaks_before_long_break := some 2, idle_timeout := none }

/-- C1 (counterexample): with `short_breaks_before_long_break = 2` and
`long_break` set, the very first short-break notification of a fresh run
carries the progress suffix " (0/3)", not " (1/3)", and the third break
entered is still a short break (suffix " (2/3)"), not the long break the
claimed ShortBreak, ShortBreak, LongBreak cycle predicts. -/
theorem c1_first_cycle_cex :
    notifAt cfg1 0 = some (some (Notification.shortBreak (some (0, 3)))) ∧
    suffixString (some (0, 3)) = " (0/3)" ∧ " (0/3)" ≠ " (1/3)" ∧
    notifAt cfg1 4 = some (some (Notification.shortBreak (some (2, 3)))) ∧
    Notification.shortBreak (some (2, 3)) ≠ Notification.longBreak := by
  refine ⟨by decide, by decide, by decide, by decide, by decide⟩

/-- C1 (amended): with `short_breaks_before_long_break = 2` and `long_break`
set, a fresh run's first cycle has three short breaks, with suffixes
" (0/3)", " (1/3)", " (2/3)", before the first long break; the counter is 0
again after the long break, and from the second expiry on the phase/counter
sequence is periodic with period 6, so every later cycle has exactly two
short breaks, " (1/3)" then " (2/3)", between long breaks. -/
theorem c1_amended (wi sb lb : Nat) :
    notifAt (cfgWith wi sb lb) 0 = some (some (Notification.shortBreak (some (0, 3)))) ∧
    notifAt (cfgWith wi sb lb) 2 = some (some (Notification.shortBreak (some (1, 3)))) ∧
    notifAt (cfgWith wi sb lb) 4 = some (some (Notification.shortBreak (some (2, 3)))) ∧
    notifAt (cfgWith wi sb lb) 6 = some (some Notification.longBreak) ∧
    notifAt (cfgWith wi sb lb) 1 = some none ∧
    notifAt (cfgWith wi sb lb) 3 = some none ∧
    notifAt (cfgWith wi sb lb) 5 = some none ∧
    notifAt (cfgWith wi sb lb) 7 = some none ∧
    suffixString (some (1, 3)) = " (1/3)" ∧
    suffixString (some (2, 3)) = " (2/3)" ∧
    obsAfter (cfgWith wi sb lb) 7 = some (NextEvent.Work, 0) ∧
    (∀ n : Nat, obsAfter (cfgWith wi sb lb) (n + 2 + 6) = obsAfter (cfgWith wi sb lb) (n + 2)) := by
  refine ⟨rfl, rfl, rfl, rfl, rfl, rfl, rfl, rfl, rfl, rfl, rfl, ?_⟩
  intro n
  induction n with
  | zero => rfl
  | succ k ih =>
    have e1 := obsAfter_succ (cfgWith wi sb lb) (k + 2 + 6)
    have e2 := obsAfter_succ (cfgWith wi sb lb) (k + 2)
    exact e1.trans (by rw [ih]; exact e2.symm)

/-- C2 (code evaluated at the failing input): with
`short_breaks_before_long_break = 0` configured but `long_break` absent, the
second timer expiry of a fresh run already sets `next_event` to `LongBreak`,
and the third expiry runs the LongBreak arm, which unwraps the absent
`long_break` duration and panics (modelled as `none`). -/
theorem c2_longbreak_without_duration :
    stateAfter cfg2 2 =
      some { next_event := NextEvent.LongBreak, current_short_breaks := 0
             time_passed := none, timer_started := 2, idle_status := none } ∧
    stateAfter cfg2 3 = none := by
  refine ⟨by decide, by decide⟩

/-- C7 (counterexample): with `short_breaks_before_long_break` absent, a
timer expiry in the Work phase (here the second expiry of a fresh run, where
the counter is 0) moves to ShortBreak but leaves the counter at 0 instead of
incrementing it to 1 as the claim predicts. -/
theorem c7_no_increment_cex :
    obsAfter cfgNoLong 1 = some (NextEvent.Work, 0) ∧
    obsAfter cfgNoLong 2 = some (NextEvent.ShortBreak, 0) ∧
    (0 : Nat) ≠ 0 + 1 := by
  refine ⟨by decide, by decide, by decide⟩

/-- C7 (amended): on a timer expiry in the Work phase, if
`short_breaks_before_long_break` is set and the counter equals it, the next
phase is LongBreak and the counter resets to 0; if it is set and the counter
differs, the next phase is ShortBreak and the counter is incremented (in u8
arithmetic) — this happens even when `long_break` is unset, in which case it
is not inert, since the counter still eventually selects the LongBreak
branch; if `short_breaks_before_long_break` is unset, the next phase is
ShortBreak and the counter is left unchanged. -/
theorem c7_work_expiry (cfg : Config) (now : Nat) (p : Passata)
    (h : p.next_event = NextEvent.Work) :
    (∀ v, cfg.short_breaks_before_long_break = some v → p.current_short_breaks = v →
      (timerCallback cfg now p).map (fun r => obs r.1) = some (NextEvent.LongBreak, 0)) ∧
    (∀ v, cfg.short_breaks_before_long_break = some v → p.current_short_breaks ≠ v →
      (timerCallback cfg now p).map (fun r => obs r.1) =
        some (NextEvent.ShortBreak, (p.current_short_breaks + 1) % 256)) ∧
    (cfg.short_breaks_before_long_break = none →
      (timerCallback cfg now p).map (fun r => obs r.1) =
        some (NextEvent.ShortBreak, p.current_short_breaks)) := by
  refine ⟨?_, ?_, ?_⟩
  · intro v hc hv
    rw [timerCallback_obs]
    simp [obsNext, obs, h, hc, hv]
  · intro v hc hv
    rw [timerCallback_obs]
    simp [obsNext, obs, h, hc, hv]
  · intro hc
    rw [timerCallback_obs]
    simp [obsNext, obs, h, hc]

/-- C7 (witness): the amended work-expiry rule applied to the second expiry
of a fresh run under `cfgNoLong`. -/
theorem c7_work_expiry_witness :
    (timerCallback cfgNoLong 2
        { next_event := NextEvent.Work, current_short_breaks := 0
          time_passed := none, timer_started := 1, idle_status := none }).map
      (fun r => obs r.1) = some (NextEvent.ShortBreak, 0) :=
  (c7_work_expiry cfgNoLong 2
    { next_event := NextEvent.Work, current_short_breaks := 0
      time_passed := none, timer_started := 1, idle_status := none } rfl).2.2 rfl

/-- C10: the short-break progress total is computed as
`short_breaks_before_long_break + 1` in u8 arithmetic; for the configured
value 255 the first short-break notification therefore shows total
`(255 + 1) % 256 = 0`, rendered " (0/0)", rather than 256. -/
theorem c10_u8_total_overflow :
    notifAt cfg10 0 = some (some (Notification.shortBreak (some (0, (255 + 1) % 256)))) ∧
    (255 + 1) % 256 = 0 ∧
    suffixString (some (0, (255 + 1) % 256)) = " (0/0)" ∧
    (0 : Nat) ≠ 256 := by
  refine ⟨by decide, by decide, by decide, by decide⟩

end PassataApp

namespace PassataApp

/-- One pass of the idle-processing block preserves the property that a
disabled timer comes with a stored pause value: the only branch that
disables the timer (Idled) also stores one, and no branch clears it. -/
theorem processIdle_inv (cfg : Config) (now : Nat) (p : Passata) (t : Timer)
    (p' : Passata) (t' : Timer) (nf : Option Notification)
    (h : processIdle cfg now p t = some (p', t', nf))
    (ih : t.enabled = false → p.time_passed.isSome = true) :
    t'.enabled = false → p'.time_passed.isSome = true := by
  by_cases hw : p.next_event = NextEvent.Work
  · simp [processIdle, hw] at h
    obtain ⟨rfl, rfl, rfl⟩ := h
    exact ih
  · cases hs : p.idle_status with
    | none =>
      simp [processIdle, hw, hs] at h
      obtain ⟨rfl, rfl, rfl⟩ := h
      exact ih
    | some ev =>
      cases ev with
      | Idled =>
        simp [processIdle, hw, hs] at h
        obtain ⟨rfl, rfl, rfl⟩ := h
        intro
        simp
      | Resumed =>
        cases htp : p.time_passed with
        | none => simp [processIdle, hw, hs, htp] at h
        | some tp =>
          by_cases hlt : cfg.work_interval < tp
          · simp [processIdle, hw, hs, htp, hlt] at h
          · simp [processIdle, hw, hs, htp, hlt] at h
            obtain ⟨rfl, rfl, rfl⟩ := h
            intro hf
            simp at hf

/-- Every step of the system preserves the property that a disabled timer
comes with a stored pause value. -/
theorem step_pausedInv {cfg : Config} {s s' : Sys} (hstep : Step cfg s s')
    (ih : s.timer.enabled = false → s.passata.time_passed.isSome = true) :
    s'.timer.enabled = false → s'.passata.time_passed.isSome = true := by
  cases hstep with
  | expiry now s1 s1' he h =>
    unfold sysExpiry at h
    cases hr : timerCallback cfg now s.passata with
    | none => rw [hr] at h; simp at h
    | some r =>
      rw [hr] at h
      simp at h
      subst h
      intro hf
      simp only at hf
      rw [he] at hf
      exact absurd hf (by decide)
  | deliver ev s1 =>
    intro hf
    simp only [sysDeliver, deliverIdle] at hf ⊢
    exact ih hf
  | idle now s1 s1' h =>
    unfold sysIdle at h
    cases hr : processIdle cfg now s.passata s.timer with
    | none => rw [hr] at h; simp at h
    | some r =>
      rw [hr] at h
      simp at h
      subst h
      intro hf
      simp only at hf
      exact processIdle_inv cfg now s.passata s.timer r.1 r.2.1 r.2.2 hr ih hf

/-- The trace of claim C3's counterexample: from a fresh start (Work phase),
an Idled is delivered and processed at time 10, then a Resumed is delivered
and processed at time 13. -/
def c3trace : Option Sys :=
  (sysIdle cfg1 10 (sysDeliver IdleStatus.Idled (initSys cfg1))).bind
    (fun s => sysIdle cfg1 13 (sysDeliver IdleStatus.Resumed s))

/-- C3 (counterexample): after a pause at time 10 and a resume at time 13,
the timer is running again but `time_passed` still holds `some 10` — the
Resumed branch re-arms the timer without clearing the stored value, so the
claimed "present if and only if paused" fails in the only-if direction. -/
theorem c3_resumed_keeps_value_cex :
    c3trace.map (fun s => (s.timer.enabled, s.passata.time_passed)) = some (true, some 10) ∧
    (some 10 : Option Nat) ≠ none :=
  ⟨by decide, by decide⟩

/-- C3 (amended): in every reachable state, if the countdown timer is
disabled (paused) then a pause value is stored; but the converse fails:
processing a Resumed event re-arms the timer while leaving `time_passed`
exactly as it was — the code never clears it. -/
theorem c3_pause_bookkeeping (cfg : Config) :
    (∀ s : Sys, Reachable cfg s → s.timer.enabled = false → s.passata.time_passed.isSome = true) ∧
    (∀ (now : Nat) (p : Passata) (t : Timer) (p' : Passata) (t' : Timer)
       (nf : Option Notification),
      p.idle_status = some IdleStatus.Resumed →
      processIdle cfg now p t = some (p', t', nf) → p'.time_passed = p.time_passed) := by
  constructor
  · intro s hs
    induction hs with
    | init => intro hf; simp [initSys, initTimer] at hf
    | step hr hstep ih => exact step_pausedInv hstep ih
  · intro now p t p' t' nf hres h
    by_cases hw : p.next_event = NextEvent.Work
    · simp [processIdle, hw] at h
      obtain ⟨rfl, rfl, rfl⟩ := h
      rfl
    · cases htp : p.time_passed with
      | none => simp [processIdle, hw, hres, htp] at h
      | some tp =>
        by_cases hlt : cfg.work_interval < tp
        · simp [processIdle, hw, hres, htp, hlt] at h
        · simp [processIdle, hw, hres, htp, hlt] at h
          obtain ⟨rfl, rfl, rfl⟩ := h
          exact htp.symm ▸ rfl

/-- C3 (witness): the invariant at the initial state, and the non-clearing
equation at a concrete resume. -/
theorem c3_pause_bookkeeping_witness :
    ((initSys cfg1).timer.enabled = false → (initSys cfg1).passata.time_passed.isSome = true) ∧
    ({ next_event := NextEvent.ShortBreak
       current_short_breaks := 0
       time_passed := some 10
       timer_started := 20
       idle_status := none } : Passata).time_passed =
      ({ next_event := NextEvent.ShortBreak
         current_short_breaks := 0
         time_passed := some 10
         timer_started := 13
         idle_status := some IdleStatus.Resumed } : Passata).time_passed :=
  ⟨(c3_pause_bookkeeping cfg1).1 (initSys cfg1) Reachable.init,
   (c3_pause_bookkeeping cfg1).2 20
     { next_event := NextEvent.ShortBreak
       current_short_breaks := 0
       time_passed := some 10
       timer_started := 13
       idle_status := some IdleStatus.Resumed }
     { enabled := true, armed := 1490 }
     { next_event := NextEvent.ShortBreak
       current_short_breaks := 0
       time_passed := some 10
       timer_started := 20
       idle_status := none }
     { enabled := true, armed := 1490 }
     (some (Notification.untilNextBreak 1440)) rfl (by decide)⟩

end PassataApp

namespace PassataApp

/-- The first pause/resume cycle of claim C4's failing run: pause at time 10
(10s elapsed of the 100s work interval), resume at time 12. -/
def c4mid : Option Sys :=
  (sysIdle cfgNoLong 10 (sysDeliver IdleStatus.Idled (initSys cfgNoLong))).bind
    (fun s => sysIdle cfgNoLong 12 (sysDeliver IdleStatus.Resumed s))

/-- The second pause/resume cycle on top of `c4mid`: pause again at time 32
(20s elapsed of the re-armed 90s countdown), resume at time 35. -/
def c4trace : Option Sys :=
  (c4mid.bind (fun s => sysIdle cfgNoLong 32 (sysDeliver IdleStatus.Idled s))).bind
    (fun s => sysIdle cfgNoLong 35 (sysDeliver IdleStatus.Resumed s))

/-- C4 (code evaluated at the failing input): the first resume re-arms the
countdown for 100 - 10 = 90s as the claim states, but after pausing again
20s into that 90s countdown, the second resume re-arms for
`work_interval - elapsed` = 100 - 20 = 80s — not 90 - 20 = 70s.  The
subtraction is always from `work_interval`, never from the currently armed
duration. -/
theorem c4_second_pause_overcounts :
    c4mid.map (fun s => s.timer.armed) = some 90 ∧
    c4trace.map (fun s => (s.timer.armed, s.passata.time_passed)) = some (80, some 20) ∧
    (80 : Nat) ≠ 90 - 20 :=
  ⟨by decide, by decide, by decide⟩

/-- The trace of claim C5's counterexample: from a fresh start, an Idled is
delivered and processed at time 10; then a Resumed and an Idled are both
delivered before the next processing pass (the one-shot flag keeps only the
Idled), and the pending Idled is processed at time 15 while already
paused. -/
def c5trace : Option Sys :=
  (sysIdle cfg1 10 (sysDeliver IdleStatus.Idled (initSys cfg1))).bind
    (fun s => sysIdle cfg1 15 (sysDeliver IdleStatus.Idled (sysDeliver IdleStatus.Resumed s)))

/-- C5 (counterexample): processing a second Idled while already paused
overwrites the stored value with the elapsed time at the second processing —
`some 15` instead of the `some 10` stored by the first Idled — so it is not
a no-op and does not leave the paused state unchanged. -/
theorem c5_second_idled_cex :
    c5trace.map (fun s => (s.passata.time_passed, s.timer.enabled)) = some (some 15, false) ∧
    (some 15 : Option Nat) ≠ some 10 :=
  ⟨by decide, by decide⟩

/-- C5 (amended): processing an idle event during the Work phase is not
idempotent in general: a pending Idled — whether or not the timer is already
paused — always stores `now - timer_started` (so a repeat at a later time
overwrites the first value), and a pending Resumed — whether or not the
timer is already running — always re-arms the countdown for
`work_interval - time_passed` and resets `timer_started` to `now` (moving
the deadline).  Only when no time has passed since the previous processing
do the repeated events reproduce the same state. -/
theorem c5_idle_not_idempotent (cfg : Config) (now : Nat) (p : Passata) (t : Timer)
    (hw : p.next_event ≠ NextEvent.Work) :
    (p.idle_status = some IdleStatus.Idled →
      processIdle cfg now p t =
        some ({ p with idle_status := none, time_passed := some (now - p.timer_started) },
              { t with enabled := false }, none)) ∧
    (∀ tp, p.idle_status = some IdleStatus.Resumed → p.time_passed = some tp →
      tp ≤ cfg.work_interval →
      processIdle cfg now p t =
        some ({ p with idle_status := none, timer_started := now },
              { t with enabled := true, armed := cfg.work_interval - tp },
              some (Notification.untilNextBreak (displaySecs (cfg.work_interval - tp))))) := by
  constructor
  · intro hs
    simp [processIdle, hw, hs]
  · intro tp hs htp hle
    simp [processIdle, hw, hs, htp, Nat.not_lt.mpr hle]

/-- C5 (witness): the Idled equation applied to an already-paused concrete
state at a later time. -/
theorem c5_idle_not_idempotent_witness :
    processIdle cfg1 15
      { next_event := NextEvent.ShortBreak
        current_short_breaks := 0
        time_passed := some 10
        timer_started := 0
        idle_status := some IdleStatus.Idled }
      { enabled := false, armed := 1500 } =
      some ({ next_event := NextEvent.ShortBreak
              current_short_breaks := 0
              time_passed := some 15
              timer_started := 0
              idle_status := none },
            { enabled := false, armed := 1500 }, none) :=
  (c5_idle_not_idempotent cfg1 15
    { next_event := NextEvent.ShortBreak
      current_short_breaks := 0
      time_passed := some 10
      timer_started := 0
      idle_status := some IdleStatus.Idled }
    { enabled := false, armed := 1500 } (by decide)).1 rfl

/-- The trace of claim C6's counterexample: the first work interval expires
at time 1500 (entering the short break), an Idled is delivered during the
break and a processing pass at time 1600 leaves everything untouched, the
break ends at time 1800 (back to Work), and the next processing pass at
time 1801 finds the still-pending Idled. -/
def c6trace : Option Sys :=
  (sysExpiry cfg1 1500 (initSys cfg1)).bind (fun s =>
    (sysIdle cfg1 1600 (sysDeliver IdleStatus.Idled s)).bind (fun s =>
      (sysExpiry cfg1 1800 s).bind (fun s => sysIdle cfg1 1801 s)))

/-- C6 (counterexample): an Idled delivered during the short break is not
discarded when the break ends — right after the break-ending expiry it is
processed and pauses the subsequent Work phase's timer (the timer source
ends up disabled with a stored pause value), where the claim predicts the
timer would still be running with nothing stored. -/
theorem c6_pending_idle_survives_cex :
    c6trace.map (fun s => (s.timer.enabled, s.passata.time_passed, s.passata.idle_status)) =
      some (false, some 1, none) ∧
    ((false, some 1, none) : Bool × Option Nat × Option IdleStatus) ≠ (true, none, none) :=
  ⟨by decide, by decide⟩

/-- C6 (amended): while a break is in progress the idle-processing pass
leaves the state (and hence the break's own expiry) completely unchanged —
in particular the pending flag is not consumed — and a timer expiry never
touches the pending flag either; so an idle event arriving during a break
survives until the break ends and, once the Work phase has resumed, a
pending Idled pauses the Work phase's timer. -/
theorem c6_break_idle (cfg : Config) (now : Nat) (p : Passata) (t : Timer) :
    (p.next_event = NextEvent.Work → processIdle cfg now p t = some (p, t, none)) ∧
    (∀ r, timerCallback cfg now p = some r → r.1.idle_status = p.idle_status) ∧
    (p.next_event ≠ NextEvent.Work → p.idle_status = some IdleStatus.Idled →
      (processIdle cfg now p t).map (fun r => r.2.1.enabled) = some false) := by
  refine ⟨?_, ?_, ?_⟩
  · intro hw
    simp [processIdle, hw]
  · intro r hr
    exact (timerCallback_keeps cfg now p r hr).2
  · intro hw hs
    simp [processIdle, hw, hs]

/-- C6 (witness): during a break (the phase to be entered next is Work), a
processing pass with a pending Idled changes nothing. -/
theorem c6_break_idle_witness :
    processIdle cfg1 1600
      { next_event := NextEvent.Work
        current_short_breaks := 0
        time_passed := none
        timer_started := 1500
        idle_status := some IdleStatus.Idled }
      { enabled := true, armed := 300 } =
      some ({ next_event := NextEvent.Work
              current_short_breaks := 0
              time_passed := none
              timer_started := 1500
              idle_status := some IdleStatus.Idled },
            { enabled := true, armed := 300 }, none) :=
  (c6_break_idle cfg1 1600
    { next_event := NextEvent.Work
      current_short_breaks := 0
      time_passed := none
      timer_started := 1500
      idle_status := some IdleStatus.Idled }
    { enabled := true, armed := 300 }).1 rfl

/-- C8: when a pending Resumed is processed in the Work phase with a stored
value `tp` not exceeding the work interval, the countdown is re-armed with
the exact remaining duration `work_interval - tp`, while the notification
carries `displaySecs` of it — the exact seconds below 60, otherwise rounded
down to a whole minute; 95 remaining seconds display as 60 (one minute). -/
theorem c8_resume_exact_arm_rounded_display (cfg : Config) (now : Nat) (p : Passata)
    (t : Timer) (tp : Nat) (hw : p.next_event ≠ NextEvent.Work)
    (hs : p.idle_status = some IdleStatus.Resumed) (htp : p.time_passed = some tp)
    (hle : tp ≤ cfg.work_interval) :
    processIdle cfg now p t =
      some ({ p with idle_status := none, timer_started := now },
            { t with enabled := true, armed := cfg.work_interval - tp },
            some (Notification.untilNextBreak (displaySecs (cfg.work_interval - tp)))) ∧
    displaySecs (cfg.work_interval - tp) =
      (if cfg.work_interval - tp < 60 then cfg.work_interval - tp
       else cfg.work_interval - tp - (cfg.work_interval - tp) % 60) ∧
    displaySecs 95 = 60 := by
  refine ⟨?_, rfl, by decide⟩
  simp [processIdle, hw, hs, htp, Nat.not_lt.mpr hle]

/-- C8 (witness): resuming with 5s of the 100s work interval consumed
re-arms the timer for exactly 95s while the notification displays 60s. -/
theorem c8_resume_exact_arm_rounded_display_witness :
    processIdle cfgNoLong 40
      { next_event := NextEvent.ShortBreak
        current_short_breaks := 0
        time_passed := some 5
        timer_started := 3
        idle_status := some IdleStatus.Resumed }
      { enabled := false, armed := 100 } =
      some ({ next_event := NextEvent.ShortBreak
              current_short_breaks := 0
              time_passed := some 5
              timer_started := 40
              idle_status := none },
            { enabled := true, armed := 95 },
            some (Notification.untilNextBreak 60)) :=
  ((c8_resume_exact_arm_rounded_display cfgNoLong 40
    { next_event := NextEvent.ShortBreak
      current_short_breaks := 0
      time_passed := some 5
      timer_started := 3
      idle_status := some IdleStatus.Resumed }
    { enabled := false, armed := 100 } 5 (by decide) rfl rfl (by decide)).1).trans (by decide)

/-- The run of claim C9 up to the panic: the first work interval expires at
time 100 (entering the short break); during the break an Idled and then a
Resumed are delivered, so the one-shot flag holds only the Resumed; a
processing pass at time 101 is a no-op (break in progress); the break ends
at time 105. -/
def c9pre : Option Sys :=
  (sysExpiry cfgNoLong 100 (initSys cfgNoLong)).bind (fun s =>
    (sysIdle cfgNoLong 101
        (sysDeliver IdleStatus.Resumed (sysDeliver IdleStatus.Idled s))).bind
      (fun s => sysExpiry cfgNoLong 105 s))

/-- The state right after the break of `c9pre` ends: back in the Work phase
with the Resumed still pending and no pause value ever stored. -/
def sys9 : Sys :=
  { passata :=
      { next_event := NextEvent.ShortBreak
        current_short_breaks := 0
        time_passed := none
        timer_started := 105
        idle_status := some IdleStatus.Resumed }
    timer := { enabled := true, armed := 100 } }

/-- C9: processing a Resumed in the Work phase while `time_passed` is `none`
runs `state.time_passed.unwrap()` on a `None` and panics (modelled as
`none`) instead of being a no-op; and that situation is reachable — an Idled
followed by a Resumed during a break leaves only the Resumed pending, and
the processing pass right after the break ends hits the panic. -/
theorem c9_resumed_unwrap_panics :
    (∀ (cfg : Config) (now : Nat) (p : Passata) (t : Timer),
      p.next_event ≠ NextEvent.Work → p.idle_status = some IdleStatus.Resumed →
      p.time_passed = none → processIdle cfg now p t = none) ∧
    c9pre = some sys9 ∧ sysIdle cfgNoLong 106 sys9 = none := by
  refine ⟨?_, by decide, by decide⟩
  intro cfg now p t hw hs htp
  simp [processIdle, hw, hs, htp]

/-- C9 (witness): the panic equation applied to the concrete state reached
by `c9pre`. -/
theorem c9_resumed_unwrap_panics_witness :
    processIdle cfgNoLong 106 sys9.passata sys9.timer = none :=
  c9_resumed_unwrap_panics.1 cfgNoLong 106 sys9.passata sys9.timer
    (by decide) (by decide) (by decide)

end PassataApp
